import Mathlib

/-!
Shallow embedding of the adaptive-quiz difficulty controller and the
revision planner of `src/main.py` (Studycentre).

Conventions of the embedding:
* `QuizAgent.accuracy_tracker` (a Python list of booleans mutated in place)
  is passed explicitly as a `List Bool` and returned updated.
* Python float arithmetic on accuracy scores is modelled over `ℚ`; the
  literals `0.8` and `0.5` of the source are the rationals `4/5` and `1/2`
  (both are exactly representable at every window size that can reach them,
  so the comparisons agree with the source's float comparisons on the
  boundary cases the claims are about).
* Calls to the OpenAI chat-completion client are I/O: each embedded
  function takes the parsed reply (or the raised exception) as an explicit
  argument (`Option`/`Except`), covering the source's `try`/`except` paths.
* `datetime` values are modelled at calendar-day granularity as integers
  (day numbers), so `timedelta(days=i)` is `+ i` and `(a - b).days` is
  `a - b`.
* Python dicts keyed by strings are modelled as association lists built in
  insertion order, with `dictLookup` as key lookup.
-/

/-- One entry of the grading oracle's `results` list: a JSON object whose
`is_correct` key may be absent (the source reads it with
`item.get("is_correct", False)`). -/
structure GradeResult where
  is_correct : Option Bool
  feedback : String
deriving DecidableEq

/-- `QuizAgent.track_results`: appends `item.get("is_correct", False)` to
`self.accuracy_tracker` for each result item. -/
def track_results (tracker : List Bool) (results : List GradeResult) : List Bool :=
  tracker ++ results.map (fun r => r.is_correct.getD false)

/-- The aggregate accuracy `sum(self.accuracy_tracker) / len(self.accuracy_tracker)`
computed by `QuizAgent.get_next_difficulty` (summing Python booleans counts
the `True` entries). -/
def aggregateScore (tracker : List Bool) : ℚ :=
  (tracker.countP (fun b => b) : ℚ) / (tracker.length : ℚ)

/-- `QuizAgent.get_next_difficulty`: returns `"Easy"` on an empty tracker,
otherwise computes the score, clears the tracker, and moves one level up
(score > 0.8), one level down (score < 0.5), or stays. The pair returned is
(next difficulty, tracker state after the call). -/
def get_next_difficulty (tracker : List Bool) (current_difficulty : String) :
    String × List Bool :=
  if tracker = [] then
    ("Easy", tracker)
  else
    let score := aggregateScore tracker
    let next_level :=
      if score > 0.8 then
        if current_difficulty = "Easy" then "Medium" else "Hard"
      else if score < 0.5 then
        if current_difficulty = "Hard" then "Medium" else "Easy"
      else current_difficulty
    (next_level, [])

/-- `QuizAgent.grade_quiz`, with the oracle call's outcome passed in:
`some results` is a successfully parsed reply (its `results` list), `none`
is any raised exception. On success the results are logged to the tracker
via `track_results` and returned; on failure a fallback list of
`len(quiz_data)` error entries is returned and the tracker is untouched.
The pair returned is (returned results, tracker state after the call). -/
def grade_quiz (tracker : List Bool) (quiz_len : ℕ)
    (oracle : Option (List GradeResult)) : List GradeResult × List Bool :=
  match oracle with
  | some results => (results, track_results tracker results)
  | none =>
      (List.replicate quiz_len
        { is_correct := some false, feedback := "Error grading this question." },
       tracker)

/-- Rank of a difficulty level in the order Easy < Medium < Hard, for
stating the one-step transition invariant. -/
def levelRank : String → ℕ
  | "Medium" => 1
  | "Hard" => 2
  | _ => 0

/-- Claim C1: for every current level in {Easy, Medium, Hard}, a decision
taken at aggregate accuracy exactly 0.8 or exactly 0.5 returns the current
level unchanged (both boundaries are inside the "stay" band). -/
theorem c1_boundary_stay (tracker : List Bool) (current : String)
    (hcur : current ∈ (["Easy", "Medium", "Hard"] : List String))
    (htr : tracker ≠ [])
    (hsc : aggregateScore tracker = 0.8 ∨ aggregateScore tracker = 0.5) :
    get_next_difficulty tracker current = (current, []) := by
  rcases hsc with h | h <;>
    simp [get_next_difficulty, h, htr] <;> norm_num

/-- Witness for C1 at the window [T,T,T,T,F] (score exactly 0.8) and
current level Medium. -/
theorem c1_boundary_stay_witness :
    get_next_difficulty [true, true, true, true, false] "Medium" = ("Medium", []) :=
  c1_boundary_stay [true, true, true, true, false] "Medium"
    (by simp) (by simp)
    (Or.inl (by norm_num [aggregateScore]))

/-- Claim C2: with an empty accuracy window the decision returns Easy for
every current level (cold start is a defined default, not an error). -/
theorem c2_cold_start (current : String) :
    get_next_difficulty [] current = ("Easy", []) := rfl

/-- Claim C3: the window is consumed exactly once. On a fresh (empty)
tracker the decision is the no-data default Easy; after recording the
outcomes [true, false, true] the aggregate is 2/3 and the decision call
clears the window, so an immediately following decision call is back on
the no-data path and returns Easy. -/
theorem c3_exactly_once (current : String) :
    get_next_difficulty [] current = ("Easy", []) ∧
    track_results [] [⟨some true, "ok"⟩, ⟨some false, "no"⟩, ⟨some true, "ok"⟩]
      = [true, false, true] ∧
    aggregateScore [true, false, true] = 2 / 3 ∧
    (get_next_difficulty [true, false, true] current).2 = [] ∧
    get_next_difficulty (get_next_difficulty [true, false, true] current).2 current
      = ("Easy", []) := by
  refine ⟨rfl, by simp [track_results], by norm_num [aggregateScore], ?_, ?_⟩ <;>
    simp [get_next_difficulty]

/-- Claim C4: decisions on a non-empty window move at most one step in the
order Easy < Medium < Hard; above 0.8 they escalate Easy→Medium,
Medium→Hard, Hard→Hard (ceiling), and below 0.5 they de-escalate
Hard→Medium, Medium→Easy, Easy→Easy (floor). -/
theorem c4_one_step (tracker : List Bool) (current : String)
    (htr : tracker ≠ [])
    (hcur : current ∈ (["Easy", "Medium", "Hard"] : List String)) :
    ((get_next_difficulty tracker current).1 ∈ (["Easy", "Medium", "Hard"] : List String) ∧
      (levelRank (get_next_difficulty tracker current).1 : ℤ) ≤ levelRank current + 1 ∧
      (levelRank current : ℤ) ≤ levelRank (get_next_difficulty tracker current).1 + 1) ∧
    (0.8 < aggregateScore tracker →
      (get_next_difficulty tracker "Easy").1 = "Medium" ∧
      (get_next_difficulty tracker "Medium").1 = "Hard" ∧
      (get_next_difficulty tracker "Hard").1 = "Hard") ∧
    (aggregateScore tracker < 0.5 →
      (get_next_difficulty tracker "Hard").1 = "Medium" ∧
      (get_next_difficulty tracker "Medium").1 = "Easy" ∧
      (get_next_difficulty tracker "Easy").1 = "Easy") := by
  by_cases hgt : (0.8 : ℚ) < aggregateScore tracker
  · refine ⟨?_, fun _ => ?_, fun hlt => absurd hlt (by linarith)⟩
    · fin_cases hcur <;> simp [get_next_difficulty, htr, hgt, levelRank]
    · refine ⟨?_, ?_, ?_⟩ <;> simp [get_next_difficulty, htr, hgt]
  · by_cases hlt : aggregateScore tracker < 0.5
    · refine ⟨?_, fun h => absurd h hgt, fun _ => ?_⟩
      · fin_cases hcur <;> simp [get_next_difficulty, htr, hgt, hlt, levelRank]
      · refine ⟨?_, ?_, ?_⟩ <;> simp [get_next_difficulty, htr, hgt, hlt]
    · refine ⟨?_, fun h => absurd h hgt, fun h => absurd h hlt⟩
      fin_cases hcur <;> simp [get_next_difficulty, htr, hgt, hlt, levelRank]

/-- Witness for C4 at the window [true] (score 1 > 0.8), current level
Easy: escalation to Medium. -/
theorem c4_one_step_witness :
    (get_next_difficulty [true] "Easy").1 = "Medium" :=
  ((c4_one_step [true] "Easy" (by simp) (by simp)).2.1
    (by norm_num [aggregateScore])).1

/-- Claim C10: on an oracle failure, `grade_quiz` returns exactly one
fallback entry per input question (is_correct false, feedback
"Error grading this question.") and leaves the accuracy tracker unchanged;
on success it returns the oracle's results and appends exactly one boolean
per returned result to the tracker. -/
theorem c10_grade_quiz_paths (tracker : List Bool) (quiz_len : ℕ)
    (results : List GradeResult) :
    (grade_quiz tracker quiz_len none).1
        = List.replicate quiz_len ⟨some false, "Error grading this question."⟩ ∧
    (grade_quiz tracker quiz_len none).1.length = quiz_len ∧
    (grade_quiz tracker quiz_len none).2 = tracker ∧
    (grade_quiz tracker quiz_len (some results)).1 = results ∧
    (grade_quiz tracker quiz_len (some results)).2
        = tracker ++ results.map (fun r => r.is_correct.getD false) ∧
    (grade_quiz tracker quiz_len (some results)).2.length
        = tracker.length + results.length := by
  simp [grade_quiz, track_results]

/-- Key lookup in an association list, the model of Python's
`dict[k]` / `k in dict` on string-keyed dicts. -/
def dictLookup {β : Type} (t : String) : List (String × β) → Option β
  | [] => none
  | (k, v) :: rest => if t = k then some v else dictLookup t rest

/-- One step of the grouping loop of the `/planner/create` endpoint
(`create_revision_plan` in the HTTP layer): if the topic is already a key,
append the score to its list, otherwise add a new `(topic, [score])`
entry (the source first inserts an empty list, then appends). -/
def addScore (acc : List (String × List ℚ)) (topic : String) (score : ℚ) :
    List (String × List ℚ) :=
  if (dictLookup topic acc).isSome then
    acc.map (fun p => if p.1 = topic then (p.1, p.2 ++ [score]) else p)
  else
    acc ++ [(topic, [score])]

/-- The grouping loop of the `/planner/create` endpoint: builds
`performance_dict` as topic ↦ list of that topic's scores, in first-seen
topic order. -/
def groupScores (metrics : List (String × ℚ)) : List (String × List ℚ) :=
  metrics.foldl (fun acc m => addScore acc m.1 m.2) []

/-- The averaging comprehension of the `/planner/create` endpoint:
`{k: sum(v)/len(v) if v else 0.5 for k, v in performance_dict.items()}`.
(The empty-list branch is dead in the source: grouped lists are never
empty.) -/
def buildPerformanceDict (metrics : List (String × ℚ)) : List (String × ℚ) :=
  (groupScores metrics).map (fun p =>
    (p.1, if p.2 = [] then (0.5 : ℚ) else p.2.sum / (p.2.length : ℚ)))

/-- One entry of the plan list the planning oracle returns (and the
endpoint re-emits): day number, date, topic names, study minutes and a
focus tag. Dates are day numbers (see the file header). -/
structure DayPlan where
  day : ℤ
  date : ℤ
  topics : List String
  duration_minutes : ℤ
  focus : String
deriving DecidableEq

/-- The parsed JSON reply of the planning oracle: the `plan` list and the
`summary` string (each read with `.get` and a default in the source). -/
structure PlanData where
  plan : List DayPlan
  summary : String
deriving DecidableEq

/-- The dict returned by `PlannerAgent.create_revision_plan`. -/
structure PlanResult where
  plan : List DayPlan
  summary : String
  exam_date : ℤ
  days_until_exam : ℤ
deriving DecidableEq

/-- The date-stamping loop
`for i, day_plan in enumerate(plan): day_plan["date"] = (start_date + timedelta(days=i)).isoformat()`,
written with the running index explicit. -/
def stamp_dates (start_date : ℤ) : ℕ → List DayPlan → List DayPlan
  | _, [] => []
  | i, dp :: rest => { dp with date := start_date + (i : ℤ) } :: stamp_dates start_date (i + 1) rest

/-- `PlannerAgent.create_revision_plan`. `exam_date` mirrors the optional
ISO string argument: `none` = absent, `some none` = present but unparsable
(both fall back to now + 30 days), `some (some d)` = parses to day `d`.
`topics` is the optional topic list of the request (it only flows into the
prompt text). `oracle` is the planning oracle's outcome: `.ok` a parsed
reply, `.error` a raised exception's message. The horizon
`days_until_exam` is `max(1, (exam_dt - now).days)`. -/
def create_revision_plan (now : ℤ) (exam_date : Option (Option ℤ))
    (topics : List String) (oracle : Except String PlanData) : PlanResult :=
  let exam_dt : ℤ :=
    match exam_date with
    | some (some d) => d
    | some none => now + 30
    | none => now + 30
  let days_until_exam : ℤ := max 1 (exam_dt - now)
  match oracle with
  | .ok data =>
      { plan := stamp_dates now 0 data.plan
        summary := data.summary
        exam_date := exam_dt
        days_until_exam := days_until_exam }
  | .error e =>
      { plan := []
        summary := "Error creating plan: " ++ e
        exam_date := exam_dt
        days_until_exam := days_until_exam }

theorem stamp_dates_length (start_date : ℤ) (l : List DayPlan) :
    ∀ i : ℕ, (stamp_dates start_date i l).length = l.length := by
  induction l with
  | nil => intro i; rfl
  | cons dp rest ih => intro i; simp [stamp_dates, ih]

theorem stamp_dates_date (start_date : ℤ) (l : List DayPlan) :
    ∀ (i j : ℕ) (h : j < (stamp_dates start_date i l).length),
      ((stamp_dates start_date i l).get ⟨j, h⟩).date = start_date + (i : ℤ) + (j : ℤ) := by
  induction l with
  | nil => intro i j h; simp [stamp_dates] at h
  | cons dp rest ih =>
    intro i j h
    cases j with
    | zero => simp [stamp_dates]
    | succ j =>
      have := ih (i + 1) j (by simpa [stamp_dates] using h)
      simp only [stamp_dates, List.get_cons_succ] at this ⊢
      rw [this]
      push_cast
      ring

theorem stamp_dates_day (start_date : ℤ) (l : List DayPlan) :
    ∀ (i j : ℕ) (h : j < (stamp_dates start_date i l).length) (h' : j < l.length),
      ((stamp_dates start_date i l).get ⟨j, h⟩).day = (l.get ⟨j, h'⟩).day := by
  induction l with
  | nil => intro i j h; simp [stamp_dates] at h
  | cons dp rest ih =>
    intro i j h h'
    cases j with
    | zero => simp [stamp_dates]
    | succ j =>
      have := ih (i + 1) j (by simpa [stamp_dates] using h) (by simpa using h')
      simpa only [stamp_dates, List.get_cons_succ] using this

/-- A sample parsed oracle reply with two day entries carrying day numbers
3 and 9 (used as concrete inputs for the planner claims). -/
def oracleTwoDays : PlanData :=
  { plan := [
      { day := 3, date := 0, topics := ["a"], duration_minutes := 30, focus := "high" },
      { day := 9, date := 0, topics := ["b"], duration_minutes := 30, focus := "low" }],
    summary := "s" }

/-- A sample parsed oracle reply with a single 30-minute high-focus day. -/
def oracleOneDay30 : PlanData :=
  { plan := [
      { day := 1, date := 0, topics := ["t"], duration_minutes := 30, focus := "high" }],
    summary := "s" }

/-- A sample parsed oracle reply with a single 60-minute high-focus day. -/
def oracleOneDay60 : PlanData :=
  { plan := [
      { day := 1, date := 0, topics := ["x"], duration_minutes := 60, focus := "high" }],
    summary := "s" }

/-- Counterexample to C9: the endpoint re-emits the oracle's `day` fields
unvalidated. With a 5-day horizon and an oracle reply whose entries carry
day numbers 3 and 9, the returned plan has 2 entries with day numbers
[3, 9]: not contiguous from 1 to the horizon. -/
theorem c9_day_numbers_counterexample :
    ((create_revision_plan 0 (some (some 5)) [] (.ok oracleTwoDays)).plan.map
        (fun dp => dp.day) = [3, 9]) ∧
    (create_revision_plan 0 (some (some 5)) [] (.ok oracleTwoDays)).days_until_exam = 5 ∧
    (create_revision_plan 0 (some (some 5)) [] (.ok oracleTwoDays)).plan.length = 2 := by
  refine ⟨rfl, by decide, rfl⟩

/-- Claim C9 as amended: the dates of the returned plan are stamped
contiguously (the entry at 0-based index j is dated plan-creation day + j)
and the oracle's `day` fields pass through unchanged; day numbers and the
number of entries are whatever the oracle returned, not validated against
the horizon. -/
theorem c9_dates_stamped (now : ℤ) (exam_date : Option (Option ℤ))
    (ts : List String) (data : PlanData) (j : ℕ)
    (h : j < (create_revision_plan now exam_date ts (.ok data)).plan.length) :
    ((create_revision_plan now exam_date ts (.ok data)).plan.get ⟨j, h⟩).date
        = now + (j : ℤ) ∧
    ∀ h' : j < data.plan.length,
      ((create_revision_plan now exam_date ts (.ok data)).plan.get ⟨j, h⟩).day
        = (data.plan.get ⟨j, h'⟩).day := by
  constructor
  · have := stamp_dates_date now data.plan 0 j h
    simpa using this
  · intro h'
    exact stamp_dates_day now data.plan 0 j h h'

/-- Witness for C9 (amended): on `oracleTwoDays` with creation day 7,
the entry at index 1 is dated day 8. -/
theorem c9_dates_stamped_witness :
    ((create_revision_plan 7 (some (some 12)) ["x"]
        (.ok oracleTwoDays)).plan.get ⟨1, by decide⟩).date = 8 :=
  (c9_dates_stamped 7 (some (some 12)) ["x"] oracleTwoDays 1 (by decide)).1

/-- Counterexample to C5: a request whose exam date is the creation day
itself (horizon 0 < 1) is not rejected: no INVALID_HORIZON error exists,
the horizon is clamped to 1 and a (non-empty) plan is still produced. -/
theorem c5_no_invalid_horizon_counterexample :
    (create_revision_plan 0 (some (some 0)) [] (.ok oracleOneDay30)).days_until_exam = 1 ∧
    (create_revision_plan 0 (some (some 0)) [] (.ok oracleOneDay30)).plan ≠ [] := by
  refine ⟨by decide, by decide⟩

/-- Claim C5 as amended: for a requested horizon below 1 day the scheduler
clamps `days_until_exam` to 1 and still produces the (date-stamped) oracle
plan; it signals no error. -/
theorem c5_horizon_clamped (now d : ℤ) (ts : List String) (data : PlanData)
    (h : d - now < 1) :
    (create_revision_plan now (some (some d)) ts (.ok data)).days_until_exam = 1 ∧
    (create_revision_plan now (some (some d)) ts (.ok data)).plan
        = stamp_dates now 0 data.plan := by
  refine ⟨?_, rfl⟩
  show max 1 (d - now) = 1
  exact max_eq_left (by omega)

/-- Witness for C5 (amended) at creation day 0 and exam date day 0. -/
theorem c5_horizon_clamped_witness :
    (create_revision_plan 0 (some (some 0)) [] (.ok oracleOneDay30)).days_until_exam = 1 :=
  (c5_horizon_clamped 0 0 [] oracleOneDay30 (by decide)).1

/-- Counterexample to C8: with an empty topics list and a 5-day horizon
the scheduler does not produce 5 zero-duration low-focus day entries — it
re-emits whatever the oracle returned. Here the oracle returns a single
60-minute high-focus day, and no DEGENERATE_PLAN condition exists to be
signalled. -/
theorem c8_degenerate_plan_counterexample :
    (create_revision_plan 0 (some (some 5)) [] (.ok oracleOneDay60)).days_until_exam = 5 ∧
    (create_revision_plan 0 (some (some 5)) [] (.ok oracleOneDay60)).plan.length = 1 ∧
    ((create_revision_plan 0 (some (some 5)) [] (.ok oracleOneDay60)).plan.map
        (fun dp => dp.duration_minutes) = [60]) ∧
    ((create_revision_plan 0 (some (some 5)) [] (.ok oracleOneDay60)).plan.map
        (fun dp => dp.focus) = ["high"]) := by
  refine ⟨by decide, rfl, by decide, by decide⟩

/-- Claim C8 as amended: an empty topics list is not special-cased — the
topics argument only flows into the prompt text, so the result is
identical to the result for any other topics list; the oracle's plan is
returned as-is (date-stamped) and no DEGENERATE_PLAN condition is
signalled. -/
theorem c8_topics_ignored (now : ℤ) (exam_date : Option (Option ℤ))
    (ts : List String) (oracle : Except String PlanData) :
    create_revision_plan now exam_date [] oracle
      = create_revision_plan now exam_date ts oracle := rfl

/-- The scores recorded for one topic, in record order: the projection of
`metrics` the grouping loop accumulates under that topic's key. -/
def topicScores (t : String) (metrics : List (String × ℚ)) : List ℚ :=
  (metrics.filter (fun m => m.1 = t)).map (fun m => m.2)

theorem dictLookup_map {β γ : Type} (t : String) (f : β → γ) :
    ∀ acc : List (String × β),
      dictLookup t (acc.map (fun p => (p.1, f p.2))) = (dictLookup t acc).map f := by
  intro acc
  induction acc with
  | nil => rfl
  | cons p rest ih =>
    obtain ⟨k, v⟩ := p
    by_cases h : t = k <;> simp [dictLookup, h, ih]

theorem dictLookup_cons {β : Type} (t k : String) (v : β) (rest : List (String × β)) :
    dictLookup t ((k, v) :: rest) = if t = k then some v else dictLookup t rest := rfl

theorem dictLookup_entry_update (t topic : String) (s : ℚ) :
    ∀ acc : List (String × List ℚ),
      dictLookup t (acc.map (fun p => if p.1 = topic then (p.1, p.2 ++ [s]) else p))
        = if t = topic then (dictLookup t acc).map (fun v => v ++ [s])
          else dictLookup t acc := by
  intro acc
  induction acc with
  | nil => simp [dictLookup]
  | cons p rest ih =>
    obtain ⟨k, v⟩ := p
    by_cases hk : k = topic
    · subst hk
      by_cases ht : t = k
      · subst ht
        simp [dictLookup_cons, ih]
      · simp [List.map_cons, dictLookup_cons, ht, ih]
    · by_cases ht : t = k
      · subst ht
        simp [List.map_cons, if_neg hk, dictLookup_cons, hk]
      · simp [List.map_cons, if_neg hk, dictLookup_cons, ht, ih]

theorem dictLookup_append_entry (t topic : String) (s : ℚ) :
    ∀ acc : List (String × List ℚ),
      dictLookup t (acc ++ [(topic, [s])])
        = ((dictLookup t acc).rec (if t = topic then some [s] else none)
            (fun v => some v) : Option (List ℚ)) := by
  intro acc
  induction acc with
  | nil => simp [dictLookup]
  | cons p rest ih =>
    obtain ⟨k, v⟩ := p
    by_cases ht : t = k <;> simp [dictLookup, ht, ih]

theorem dictLookup_addScore (t topic : String) (s : ℚ)
    (acc : List (String × List ℚ)) :
    dictLookup t (addScore acc topic s)
      = if t = topic then some (((dictLookup topic acc).getD []) ++ [s])
        else dictLookup t acc := by
  unfold addScore
  by_cases hp : (dictLookup topic acc).isSome
  · obtain ⟨v, hv⟩ := Option.isSome_iff_exists.mp hp
    by_cases ht : t = topic <;>
      simp [hp, dictLookup_entry_update, ht, hv]
  · have hnone : dictLookup topic acc = none := Option.not_isSome_iff_eq_none.mp hp
    by_cases ht : t = topic
    · subst ht
      simp [hp, dictLookup_append_entry, hnone]
    · simp [hp, dictLookup_append_entry, ht]
      cases dictLookup t acc <;> rfl

theorem dictLookup_groupScores_aux (t : String) :
    ∀ (ms : List (String × ℚ)) (acc : List (String × List ℚ)),
      dictLookup t (ms.foldl (fun a m => addScore a m.1 m.2) acc)
        = ((dictLookup t acc).rec
            (if topicScores t ms = [] then none else some (topicScores t ms))
            (fun l => some (l ++ topicScores t ms)) : Option (List ℚ)) := by
  intro ms
  induction ms with
  | nil =>
    intro acc
    cases h : dictLookup t acc <;> simp [topicScores, h]
  | cons m rest ih =>
    intro acc
    rw [List.foldl_cons, ih (addScore acc m.1 m.2), dictLookup_addScore]
    by_cases ht : t = m.1
    · have hmt : m.1 = t := ht.symm
      have hfil : topicScores t (m :: rest) = m.2 :: topicScores t rest := by
        simp [topicScores, List.filter_cons, hmt]
      rw [if_pos ht, hfil, ← ht]
      cases h : dictLookup t acc with
      | none => simp [h]
      | some l => simp [h]
    · have hmt : ¬m.1 = t := fun hh => ht hh.symm
      have hfil : topicScores t (m :: rest) = topicScores t rest := by
        simp [topicScores, List.filter_cons, hmt]
      rw [if_neg ht, hfil]

theorem dictLookup_buildPerformanceDict (t : String) (ms : List (String × ℚ)) :
    dictLookup t (buildPerformanceDict ms)
      = if topicScores t ms = [] then none
        else some ((topicScores t ms).sum / ((topicScores t ms).length : ℚ)) := by
  unfold buildPerformanceDict groupScores
  rw [dictLookup_map t
    (fun v => if v = [] then (0.5 : ℚ) else v.sum / (v.length : ℚ)),
    dictLookup_groupScores_aux t ms []]
  simp only [dictLookup]
  by_cases h : topicScores t ms = [] <;> simp [h]

/-- Counterexample to C6: the performance aggregation has no score
validation at all — its result type carries no error, and a record with
the out-of-range score 3/2 is averaged straight into the output mapping
instead of any INVALID_SCORE signal. -/
theorem c6_invalid_score_counterexample :
    buildPerformanceDict [("algebra", (3 : ℚ) / 2)] = [("algebra", (3 : ℚ) / 2)] := by
  norm_num [buildPerformanceDict, groupScores, addScore, dictLookup]

/-- Claim C6 as amended: the aggregation never signals on out-of-range
scores; a record whose score lies outside [0,1] contributes to its
topic's average exactly like any in-range score (here: a lone record's
out-of-range score is returned unchanged). -/
theorem c6_scores_not_validated (topic : String) (s : ℚ)
    (h : s < 0 ∨ 1 < s) :
    dictLookup topic (buildPerformanceDict [(topic, s)]) = some s := by
  rw [dictLookup_buildPerformanceDict]
  simp [topicScores]

/-- Witness for C6 (amended) at the single record ("algebra", 3/2). -/
theorem c6_scores_not_validated_witness :
    dictLookup "algebra" (buildPerformanceDict [("algebra", (3 : ℚ) / 2)])
      = some ((3 : ℚ) / 2) :=
  c6_scores_not_validated "algebra" ((3 : ℚ) / 2) (Or.inr (by norm_num))

/-- Claim C7: for records with in-range scores the aggregation maps each
topic having at least one record to the arithmetic mean of that topic's
scores and has no entry for a topic with no records; the spec's concrete
example evaluates as stated, and re-running the aggregation on the same
records gives the identical output. -/
theorem c7_topic_means :
    (∀ (ms : List (String × ℚ)) (t : String),
        (∀ r ∈ ms, 0 ≤ r.2 ∧ r.2 ≤ 1) →
        dictLookup t (buildPerformanceDict ms)
          = if topicScores t ms = [] then none
            else some ((topicScores t ms).sum / ((topicScores t ms).length : ℚ))) ∧
    buildPerformanceDict [("algebra", 0.8), ("algebra", 0.6), ("geometry", 0.4)]
      = [("algebra", 0.7), ("geometry", 0.4)] ∧
    (∀ ms : List (String × ℚ), buildPerformanceDict ms = buildPerformanceDict ms) := by
  refine ⟨fun ms t _ => dictLookup_buildPerformanceDict t ms, ?_, fun _ => rfl⟩
  have hga : ¬("geometry" : String) = "algebra" := by decide
  have hag : ¬("algebra" : String) = "geometry" := by decide
  norm_num [buildPerformanceDict, groupScores, addScore, dictLookup, hga, hag]
  simp

/-- Witness for C7 at the spec's example records: algebra's entry is the
mean 0.7. -/
theorem c7_topic_means_witness :
    dictLookup "algebra"
        (buildPerformanceDict [("algebra", 0.8), ("algebra", 0.6), ("geometry", 0.4)])
      = some 0.7 := by
  have h := c7_topic_means.1 [("algebra", 0.8), ("algebra", 0.6), ("geometry", 0.4)]
    "algebra" (by norm_num)
  rw [h]
  have hga : ¬("geometry" : String) = "algebra" := by decide
  norm_num [topicScores, List.filter_cons, hga]
  simp
